import Mathlib

/-!
Verification of three single-file C++ algorithm demonstrations:
a 2D line-segment intersection predicate
(`geometry/line_segment_intersection.cpp`), a Jarvis-march convex hull
(`geometry/jarvis_algorithm.cpp`), and closed-form ground-to-ground
projectile motion formulas
(`physics/ground_to_ground_projectile_motion.cpp`).

Each C++ function is embedded shallowly: `int` coordinates become `Int`,
`std::vector<Point>` becomes `List Point`, the `do … while` hull loop
becomes a fuel-indexed recursion (`none` = the given number of loop
iterations did not suffice; "`none` for every fuel" = the C++ loop never
exits), and `double` arithmetic is modelled over `ℝ`.
-/

/-- A 2D point with integer coordinates, as in both geometry files
(`struct Point { int x; int y; };`). Equality is component-wise. -/
structure Point where
  x : Int
  y : Int
deriving DecidableEq, Repr

/-! ## Segment intersection (`line_segment_intersection.cpp`) -/

/-- Source method `SegmentIntersection::direction`:
`(r.y - p.y) * (q.x - p.x) - (r.x - p.x) * (q.y - p.y)`. -/
def direction (p q r : Point) : Int :=
  (r.y - p.y) * (q.x - p.x) - (r.x - p.x) * (q.y - p.y)

/-- Source method `SegmentIntersection::on_segment`: component-wise
bounding-box containment of `r` in the box spanned by `p` and `q`. -/
def on_segment (p q r : Point) : Bool :=
  decide (min p.x q.x ≤ r.x) && decide (r.x ≤ max p.x q.x) &&
    decide (min p.y q.y ≤ r.y) && decide (r.y ≤ max p.y q.y)

/-- The "general case" condition of `SegmentIntersection::intersect`,
written with exactly the parenthesisation of the C++ source
`(d1 < 0 && d2 > 0) || (d1 > 0 && d2 < 0) && (d3 < 0 && d4 > 0) || (d3 > 0 && d4 < 0)`;
`&&` binds tighter than `||` in Lean just as in C++. -/
def generalCase (d1 d2 d3 d4 : Int) : Bool :=
  (decide (d1 < 0) && decide (d2 > 0)) || (decide (d1 > 0) && decide (d2 < 0)) &&
    (decide (d3 < 0) && decide (d4 > 0)) || (decide (d3 > 0) && decide (d4 < 0))

/-- Source method `SegmentIntersection::intersect`: the general case
followed by the four collinear special cases, `false` when none applies. -/
def intersect (p1 p2 p3 p4 : Point) : Bool :=
  let d1 := direction p3 p4 p1
  let d2 := direction p3 p4 p2
  let d3 := direction p1 p2 p3
  let d4 := direction p1 p2 p4
  if generalCase d1 d2 d3 d4 then true
  else if d1 == 0 && on_segment p3 p4 p1 then true
  else if d2 == 0 && on_segment p3 p4 p2 then true
  else if d3 == 0 && on_segment p1 p2 p3 then true
  else if d4 == 0 && on_segment p1 p2 p4 then true
  else false

/-- Written from the spec's words (design-notes open question): the
precedence-parsed reading
`(d1<0 && d2>0) || ((d1>0 && d2<0) && (d3<0 && d4>0)) || (d3>0 && d4<0)`,
with the grouping made explicit. -/
def claimedGeneralCond (d1 d2 d3 d4 : Int) : Bool :=
  (decide (d1 < 0) && decide (d2 > 0)) ||
    ((decide (d1 > 0) && decide (d2 < 0)) && (decide (d3 < 0) && decide (d4 > 0))) ||
    (decide (d3 > 0) && decide (d4 < 0))

/-- Written from the spec's words: the "likely intended" mutual straddle
test `((d1<0&&d2>0)||(d1>0&&d2<0)) && ((d3<0&&d4>0)||(d3>0&&d4<0))`. -/
def intendedGeneralCond (d1 d2 d3 d4 : Int) : Bool :=
  ((decide (d1 < 0) && decide (d2 > 0)) || (decide (d1 > 0) && decide (d2 < 0))) &&
    ((decide (d3 < 0) && decide (d4 > 0)) || (decide (d3 > 0) && decide (d4 < 0)))

/-- Written from the spec's words (general-position rule): the two values
have strictly opposite signs. -/
def oppositeSides (a b : Int) : Prop := (a < 0 ∧ 0 < b) ∨ (0 < a ∧ b < 0)

instance (a b : Int) : Decidable (oppositeSides a b) := by
  unfold oppositeSides; infer_instance

/-- C7: the general-case branch of `intersect` equals the
precedence-parsed boolean of the claim, and it differs from the
conjunction of the two straddle tests (at direction values realised by
the C1/C10 counterexample configuration). -/
theorem intersect_generalCase_precedence_parse :
    (∀ d1 d2 d3 d4 : Int, generalCase d1 d2 d3 d4 = claimedGeneralCond d1 d2 d3 d4) ∧
      generalCase (-1) 1 (-10) (-12) = true ∧
      intendedGeneralCond (-1) 1 (-10) (-12) = false :=
  ⟨fun _ _ _ _ => rfl, by decide, by decide⟩

/-- C8: segment (0,0)-(2,0) and the point-degenerate segment (1,0)-(1,0)
are reported as intersecting: `d3 = direction(p1,p2,p3)` is zero and the
collinear point (1,0) lies inside the other segment's bounding box. -/
theorem intersect_touching_collinear_case :
    intersect ⟨0, 0⟩ ⟨2, 0⟩ ⟨1, 0⟩ ⟨1, 0⟩ = true ∧
      direction ⟨0, 0⟩ ⟨2, 0⟩ ⟨1, 0⟩ = 0 ∧
      on_segment ⟨0, 0⟩ ⟨2, 0⟩ ⟨1, 0⟩ = true := by
  refine ⟨?_, ?_, ?_⟩ <;> decide

/-- C1: a general-position input (all four direction values nonzero) on
which `intersect` answers `true` although the endpoints of the two
segments do not mutually straddle each other's supporting lines: segment
(0,-1)-(0,1) against the far-away horizontal segment (5,0)-(6,0). -/
theorem intersect_general_position_violation :
    (direction ⟨5, 0⟩ ⟨6, 0⟩ ⟨0, -1⟩ ≠ 0 ∧ direction ⟨5, 0⟩ ⟨6, 0⟩ ⟨0, 1⟩ ≠ 0 ∧
      direction ⟨0, -1⟩ ⟨0, 1⟩ ⟨5, 0⟩ ≠ 0 ∧ direction ⟨0, -1⟩ ⟨0, 1⟩ ⟨6, 0⟩ ≠ 0) ∧
      intersect ⟨0, -1⟩ ⟨0, 1⟩ ⟨5, 0⟩ ⟨6, 0⟩ = true ∧
      ¬ (oppositeSides (direction ⟨5, 0⟩ ⟨6, 0⟩ ⟨0, -1⟩) (direction ⟨5, 0⟩ ⟨6, 0⟩ ⟨0, 1⟩) ∧
         oppositeSides (direction ⟨0, -1⟩ ⟨0, 1⟩ ⟨5, 0⟩) (direction ⟨0, -1⟩ ⟨0, 1⟩ ⟨6, 0⟩)) := by
  refine ⟨by decide, by decide, by decide⟩

/-- C10: exchanging the two segments changes the answer on the same
configuration, so `intersect` is not symmetric in the segment pair. -/
theorem intersect_not_symmetric :
    intersect ⟨0, -1⟩ ⟨0, 1⟩ ⟨5, 0⟩ ⟨6, 0⟩ = true ∧
      intersect ⟨5, 0⟩ ⟨6, 0⟩ ⟨0, -1⟩ ⟨0, 1⟩ = false := by
  refine ⟨by decide, by decide⟩

/-! ## Convex hull, Jarvis march (`jarvis_algorithm.cpp`) -/

/-- Source value `val` inside `ConvexHull::orientation`:
`(q.y - p.y) * (r.x - q.x) - (q.x - p.x) * (r.y - q.y)`. -/
def orientationVal (p q r : Point) : Int :=
  (q.y - p.y) * (r.x - q.x) - (q.x - p.x) * (r.y - q.y)

/-- Source method `ConvexHull::orientation`:
`(val == 0) ? 0 : (val > 0) ? 1 : 2`. -/
def orientation (p q r : Point) : Int :=
  if orientationVal p q r = 0 then 0
  else if orientationVal p q r > 0 then 1 else 2

/-- The leftmost-index scan of `getHull`: start at index 0 and replace it
whenever a strictly smaller x-coordinate is found at indices `1 … n-1`
(first occurrence wins on ties). -/
def leftmostIndex (pts : List Point) : Nat :=
  (List.range' 1 (pts.length - 1)).foldl
    (fun lm i =>
      if (pts.getD i ⟨0, 0⟩).x < (pts.getD lm ⟨0, 0⟩).x then i else lm) 0

/-- One step of the inner candidate loop of `getHull`: replace the
running candidate `q` by `i` exactly when
`orientation(points[p], points[i], points[q]) == 2`. -/
def candStep (pts : List Point) (p q i : Nat) : Nat :=
  if orientation (pts.getD p ⟨0, 0⟩) (pts.getD i ⟨0, 0⟩) (pts.getD q ⟨0, 0⟩) = 2 then i
  else q

/-- The inner loop of `getHull`: `q = (p + 1) % n`, then the candidate
scan over `i = 0 … n-1` in order. -/
def nextQ (pts : List Point) (p : Nat) : Nat :=
  (List.range pts.length).foldl (fun q i => candStep pts p q i) ((p + 1) % pts.length)

/-- The `do … while (p != leftmost)` loop of `getHull`, indexed by the
number of remaining iterations: each iteration appends `points[p]`,
advances `p` to `nextQ`, and exits when the new `p` equals `leftmost`.
`none` means the given number of iterations did not suffice; the C++
loop fails to terminate exactly when the result is `none` for every
fuel. -/
def hullLoop (pts : List Point) (leftmost : Nat) : Nat → Nat → List Point → Option (List Point)
  | 0, _, _ => none
  | fuel + 1, p, hull =>
    if nextQ pts p = leftmost then some (hull ++ [pts.getD p ⟨0, 0⟩])
    else hullLoop pts leftmost fuel (nextQ pts p) (hull ++ [pts.getD p ⟨0, 0⟩])

/-- Source method `ConvexHull::getHull`: empty result for fewer than 3
points, otherwise the wrapping loop started (and exited) at the
leftmost index. -/
def getHull (pts : List Point) (fuel : Nat) : Option (List Point) :=
  if pts.length < 3 then some []
  else hullLoop pts (leftmostIndex pts) fuel (leftmostIndex pts) []

/-- The seven-point input of the source file's `test()`. -/
def test7 : List Point := [⟨0, 3⟩, ⟨2, 2⟩, ⟨1, 1⟩, ⟨2, 1⟩, ⟨3, 0⟩, ⟨0, 0⟩, ⟨3, 3⟩]

/-- An input on which the hull loop never returns to the leftmost index:
a right triangle with its two non-leftmost corners duplicated. -/
def badPoints : List Point := [⟨0, 0⟩, ⟨1, 0⟩, ⟨0, 1⟩, ⟨0, 0⟩, ⟨1, 0⟩]

lemma getD_mem_of_lt {pts : List Point} {p : Nat} (h : p < pts.length) :
    pts.getD p ⟨0, 0⟩ ∈ pts := by
  rw [List.getD_eq_getElem?_getD, List.getElem?_eq_getElem h]
  exact List.getElem_mem h

lemma foldl_lt_of_step (n : Nat) (f : Nat → Nat → Nat)
    (hf : ∀ q i, q < n → i < n → f q i < n) :
    ∀ (l : List Nat) (q : Nat), (∀ i ∈ l, i < n) → q < n → List.foldl f q l < n := by
  intro l
  induction l with
  | nil => intro q _ hq; simpa using hq
  | cons a t ih =>
    intro q hl hq
    simp only [List.foldl_cons]
    exact ih (f q a) (fun i hi => hl i (List.mem_cons.mpr (Or.inr hi)))
      (hf q a hq (hl a (List.mem_cons_self a t)))

lemma nextQ_lt (pts : List Point) (h : 0 < pts.length) (p : Nat) :
    nextQ pts p < pts.length := by
  unfold nextQ
  apply foldl_lt_of_step
  · intro q i _ hi
    unfold candStep
    split <;> assumption
  · intro i hi
    exact List.mem_range.mp hi
  · exact Nat.mod_lt _ h

lemma leftmostIndex_lt (pts : List Point) (h : 0 < pts.length) :
    leftmostIndex pts < pts.length := by
  unfold leftmostIndex
  apply foldl_lt_of_step
  · intro q i hq hi
    dsimp only
    split <;> assumption
  · intro i hi
    rcases List.mem_range'.mp hi with ⟨j, hj, rfl⟩
    omega
  · exact h

lemma hullLoop_mem (pts : List Point) (lm : Nat) :
    ∀ (fuel p : Nat) (acc hull : List Point), p < pts.length →
      (∀ x ∈ acc, x ∈ pts) → hullLoop pts lm fuel p acc = some hull →
      ∀ x ∈ hull, x ∈ pts := by
  intro fuel
  induction fuel with
  | zero =>
    intro p acc hull _ _ h
    exact absurd h (by simp [hullLoop])
  | succ n ih =>
    intro p acc hull hp hacc h
    have hmem : ∀ x ∈ acc ++ [pts.getD p ⟨0, 0⟩], x ∈ pts := by
      intro x hx
      rcases List.mem_append.mp hx with hx | hx
      · exact hacc x hx
      · rcases List.mem_singleton.mp hx with rfl
        exact getD_mem_of_lt hp
    simp only [hullLoop] at h
    by_cases hq : nextQ pts p = lm
    · rw [if_pos hq] at h
      rcases Option.some.inj h with rfl
      exact hmem
    · rw [if_neg hq] at h
      exact ih (nextQ pts p) (acc ++ [pts.getD p ⟨0, 0⟩]) hull
        (nextQ_lt pts (Nat.lt_of_le_of_lt (Nat.zero_le p) hp) p) hmem h

lemma badPoints_loop_stuck :
    ∀ (fuel p : Nat), (p = 2 ∨ p = 3 ∨ p = 4) → ∀ hull : List Point,
      hullLoop badPoints 0 fuel p hull = none := by
  intro fuel
  induction fuel with
  | zero => intro p _ hull; rfl
  | succ n ih =>
    intro p hp hull
    rcases hp with rfl | rfl | rfl
    · have h2 : hullLoop badPoints 0 (n + 1) 2 hull =
          hullLoop badPoints 0 n 3 (hull ++ [⟨0, 1⟩]) := rfl
      rw [h2]
      exact ih 3 (Or.inr (Or.inl rfl)) _
    · have h3 : hullLoop badPoints 0 (n + 1) 3 hull =
          hullLoop badPoints 0 n 4 (hull ++ [⟨0, 0⟩]) := rfl
      rw [h3]
      exact ih 4 (Or.inr (Or.inr rfl)) _
    · have h4 : hullLoop badPoints 0 (n + 1) 4 hull =
          hullLoop badPoints 0 n 2 (hull ++ [⟨1, 0⟩]) := rfl
      rw [h4]
      exact ih 2 (Or.inl rfl) _

/-- C2: `getHull` is not total — on `badPoints` (a triangle with two
corners duplicated) the loop index enters the cycle 2 → 3 → 4 → 2 and
never returns to the leftmost index 0, so no amount of fuel makes the
loop exit: the C++ `do … while` runs forever. -/
theorem getHull_badPoints_never_terminates :
    ∀ fuel : Nat, getHull badPoints fuel = none := by
  intro fuel
  match fuel with
  | 0 => rfl
  | 1 => rfl
  | n + 2 =>
    have h : getHull badPoints (n + 2) =
        hullLoop badPoints 0 n 2 [⟨0, 0⟩, ⟨1, 0⟩] := rfl
    rw [h]
    exact badPoints_loop_stuck n 2 (Or.inl rfl) _

/-- C3: every point of a hull actually returned by `getHull` is a member
of the input list — the algorithm only ever copies `points[p]` for an
in-range index `p`, never synthesizes coordinates. -/
theorem getHull_subset_input (pts : List Point) (fuel : Nat) (hull : List Point)
    (h : getHull pts fuel = some hull) : ∀ x ∈ hull, x ∈ pts := by
  unfold getHull at h
  by_cases hlen : pts.length < 3
  · rw [if_pos hlen] at h
    rcases Option.some.inj h with rfl
    intro x hx
    exact absurd hx (List.not_mem_nil x)
  · rw [if_neg hlen] at h
    have hpos : 0 < pts.length := by omega
    exact hullLoop_mem pts (leftmostIndex pts) fuel (leftmostIndex pts) [] hull
      (leftmostIndex_lt pts hpos) (fun x hx => absurd hx (List.not_mem_nil x)) h

/-- Witness for C3 at the source test input: (3,3) is returned by
`getHull` on `test7` and is indeed a member of `test7`. -/
theorem getHull_subset_input_witness : (⟨3, 3⟩ : Point) ∈ test7 :=
  getHull_subset_input test7 20 [⟨0, 3⟩, ⟨0, 0⟩, ⟨3, 0⟩, ⟨3, 3⟩] (by decide)
    ⟨3, 3⟩ (by decide)

/-- C4: for fewer than 3 input points `getHull` short-circuits to the
empty hull, at any fuel (the guard sits before the loop). -/
theorem getHull_small_input (pts : List Point) (fuel : Nat)
    (h : pts.length < 3) : getHull pts fuel = some [] := by
  unfold getHull
  rw [if_pos h]

/-- Witness for C4: a two-point input yields the empty hull. -/
theorem getHull_small_input_witness :
    ([(⟨1, 2⟩ : Point), ⟨3, 4⟩].length < 3) ∧
      getHull [⟨1, 2⟩, ⟨3, 4⟩] 0 = some [] :=
  ⟨by decide, getHull_small_input [⟨1, 2⟩, ⟨3, 4⟩] 0 (by decide)⟩

/-- C5: on the source test input `getHull` returns exactly
`[(0,3), (0,0), (3,0), (3,3)]`, whose first element is the leftmost input
point (index 0, the first point of minimal x). -/
theorem getHull_test_case :
    getHull test7 20 = some [⟨0, 3⟩, ⟨0, 0⟩, ⟨3, 0⟩, ⟨3, 3⟩] ∧
      leftmostIndex test7 = 0 ∧ test7.getD 0 ⟨0, 0⟩ = ⟨0, 3⟩ := by
  refine ⟨by decide, by decide, by decide⟩

lemma orientationVal_swap (a b c : Point) :
    orientationVal a c b = - orientationVal a b c := by
  unfold orientationVal
  ring

lemma orientation_eq_two_iff (a b c : Point) :
    orientation a c b = 2 ↔ 0 < orientationVal a b c := by
  unfold orientation
  rw [orientationVal_swap]
  split_ifs with h1 h2 <;> omega

/-- C6: the candidate update of the inner loop fires exactly when the
cross-product value of the ordered triplet
(`points[p]`, `points[q]`, `points[i]`) is positive; equivalently, the
code's test `orientation(points[p], points[i], points[q]) == 2` holds
precisely in that case. -/
theorem candStep_clockwise_rule :
    (∀ a b c : Point, ( orientation a c b = 2 ↔ 0 < orientationVal a b c)) ∧
      ∀ (pts : List Point) (p q i : Nat),
        candStep pts p q i =
          if 0 < orientationVal (pts.getD p ⟨0, 0⟩) (pts.getD q ⟨0, 0⟩) (pts.getD i ⟨0, 0⟩)
          then i else q := by
  constructor
  · intro a b c
    exact orientation_eq_two_iff a b c
  · intro pts p q i
    unfold candStep
    exact if_congr (orientation_eq_two_iff _ _ _) rfl rfl

/-! ## Projectile motion (`ground_to_ground_projectile_motion.cpp`)

The C++ functions compute with `double`; they are modelled here over `ℝ`
(the closed-form formulas of the spec). At launch angle 0 every
intermediate value the code computes is exactly representable, so the
real-valued model agrees with the double computation on this claim. -/

/-- Source function `degrees_to_radians`: `degrees * (M_PI / 180.0)`. -/
noncomputable def degrees_to_radians (degrees : ℝ) : ℝ :=
  degrees * (Real.pi / 180)

/-- Source function `time_of_flight`: `2.0 * Viy / gravity` with
`Viy = initial_velocity * sin(radians)`. -/
noncomputable def time_of_flight (initial_velocity angle gravity : ℝ) : ℝ :=
  2 * (initial_velocity * Real.sin (degrees_to_radians angle)) / gravity

/-- Source function `horizontal_range`: `Vix * time` with
`Vix = initial_velocity * cos(radians)`. -/
noncomputable def horizontal_range (initial_velocity angle time : ℝ) : ℝ :=
  initial_velocity * Real.cos (degrees_to_radians angle) * time

/-- Source function `max_height`: `pow(Viy, 2) / (2.0 * gravity)`. -/
noncomputable def max_height (initial_velocity angle gravity : ℝ) : ℝ :=
  (initial_velocity * Real.sin (degrees_to_radians angle)) ^ 2 / (2 * gravity)

/-- C9: at launch angle 0 degrees the time of flight and maximum height
are 0 for every initial velocity and positive gravity, and the
horizontal range over a flight time of 0 is 0. -/
theorem projectile_zero_angle (v g : ℝ) (_hg : 0 < g) :
    time_of_flight v 0 g = 0 ∧ max_height v 0 g = 0 ∧ horizontal_range v 0 0 = 0 := by
  refine ⟨?_, ?_, ?_⟩ <;>
    simp [time_of_flight, max_height, horizontal_range, degrees_to_radians]

/-- Witness for C9 at the source's sample velocity 5.0 and the default
gravity constant 9.81. -/
theorem projectile_zero_angle_witness :
    (0 : ℝ) < 9.81 ∧
      (time_of_flight 5 0 9.81 = 0 ∧ max_height 5 0 9.81 = 0 ∧
        horizontal_range 5 0 0 = 0) :=
  ⟨by norm_num, projectile_zero_angle 5 9.81 (by norm_num)⟩
